import Mathlib

/-!
Verification of the CParty candidate-result data model and ranking rule

Shallow embedding of `src/Result.hh` (the `Result` record and its comparator
`Result_comp::operator()`), and of the string utilities declared in
`src/ViennaRNA/utils/strings.h` that the specification covers
(`vrna_strsplit`, `vrna_cut_point_insert`, `vrna_cut_point_remove`).

The `double` / `pf_t` energy fields are embedded as rationals `ℚ`: every
finite floating-point value is a rational, and the comparator only uses the
strict order `<`, which coincides with the rational order on finite values.
-/

/-- The candidate record from `src/Result.hh`: one folding experiment outcome
with six fields, all set at construction. -/
structure Result where
  sequence : String
  restricted : String
  restricted_energy : ℚ
  final_structure : String
  final_energy : ℚ
  pf_energy : ℚ
deriving DecidableEq

/-- Modelled from the spec: the body of `Result::get_sequence` is not in the
header; the spec says each field is exposed through a read accessor. -/
def Result.get_sequence (r : Result) : String := r.sequence

/-- Modelled from the spec: read accessor for the `restricted` field. -/
def Result.get_restricted (r : Result) : String := r.restricted

/-- Modelled from the spec: read accessor for the `restricted_energy` field. -/
def Result.get_restricted_energy (r : Result) : ℚ := r.restricted_energy

/-- Modelled from the spec: read accessor for the `final_structure` field. -/
def Result.get_final_structure (r : Result) : String := r.final_structure

/-- Modelled from the spec: read accessor for the `final_energy` field. -/
def Result.get_final_energy (r : Result) : ℚ := r.final_energy

/-- Modelled from the spec: read accessor for the `pf_energy` field. -/
def Result.get_pf_energy (r : Result) : ℚ := r.pf_energy

/-- The comparator `Result::Result_comp::operator()` from `src/Result.hh`, lines 24-32:
if `x.get_final_energy() < y.get_final_energy()` return true;
if `x.get_restricted_energy() < y.get_restricted_energy()` return true;
return false. -/
def Result.result_comp (x y : Result) : Bool :=
  if x.get_final_energy < y.get_final_energy then true
  else if x.get_restricted_energy < y.get_restricted_energy then true
  else false

/-- Modelled from the spec: state-passing view of the read accessors. The
accessor bodies are not in the header; the spec says a record is "exposed only
through read accessors" that do not mutate it, so each returns its field and
hands the record back unchanged. -/
def Result.get_sequence_st (r : Result) : String × Result := (r.sequence, r)

/-- Modelled from the spec: state-passing read accessor for `restricted`. -/
def Result.get_restricted_st (r : Result) : String × Result := (r.restricted, r)

/-- Modelled from the spec: state-passing read accessor for
`restricted_energy`. -/
def Result.get_restricted_energy_st (r : Result) : ℚ × Result :=
  (r.restricted_energy, r)

/-- Modelled from the spec: state-passing read accessor for
`final_structure`. -/
def Result.get_final_structure_st (r : Result) : String × Result :=
  (r.final_structure, r)

/-- Modelled from the spec: state-passing read accessor for `final_energy`. -/
def Result.get_final_energy_st (r : Result) : ℚ × Result := (r.final_energy, r)

/-- Modelled from the spec: state-passing read accessor for `pf_energy`. -/
def Result.get_pf_energy_st (r : Result) : ℚ × Result := (r.pf_energy, r)

/-- State-passing view of `Result_comp::operator()`: the comparator receives
both records by reference and calls their accessors, so it could in principle
hand back modified records; the embedding makes the records it hands back
explicit. -/
def Result.result_comp_st (x y : Result) : Bool × Result × Result :=
  let fx := x.get_final_energy_st
  let fy := y.get_final_energy_st
  if fx.1 < fy.1 then (true, fx.2, fy.2)
  else
    let rx := fx.2.get_restricted_energy_st
    let ry := fy.2.get_restricted_energy_st
    if rx.1 < ry.1 then (true, rx.2, ry.2)
    else (false, rx.2, ry.2)

/-- Modelled from the spec: the body of `vrna_strsplit` is not under `src`
(only its declaration and documentation in `ViennaRNA/utils/strings.h`).
Tail-recursive splitter: walks the string accumulating the current token,
emitting it whenever the delimiter is met. -/
def strsplit_go (delimiter : Char) : List Char → List Char → List (List Char)
  | [], acc => [acc.reverse]
  | c :: rest, acc =>
    if c = delimiter then acc.reverse :: strsplit_go delimiter rest []
    else strsplit_go delimiter rest (c :: acc)

/-- Modelled from the spec: `vrna_strsplit` splits a string into the ordered
list of substrings delimited by the delimiter character (the caller passes
'&', the documented default); if the delimiter is not found, the returned
list contains exactly one element, the input string. -/
def vrna_strsplit (string : List Char) (delimiter : Char) : List (List Char) :=
  strsplit_go delimiter string []

theorem strsplit_go_of_not_mem (d : Char) :
    ∀ (s acc : List Char), d ∉ s → strsplit_go d s acc = [acc.reverse ++ s]
  | [], acc, _ => by simp [strsplit_go]
  | c :: rest, acc, h => by
    have hc : ¬c = d := fun hcd => h (by simp [hcd])
    have hrest : d ∉ rest := fun hm => h (List.mem_cons_of_mem c hm)
    simp only [strsplit_go, if_neg hc, strsplit_go_of_not_mem d rest (c :: acc) hrest,
      List.reverse_cons, List.append_assoc, List.cons_append, List.nil_append]

/-- Modelled from the spec: the body of `vrna_cut_point_insert` is not under
`src`; its documentation says it returns a copy of the string unchanged when
the cut point is `<= 0`, and otherwise a copy with the separating '&' set at
the (1-based) cut-point position. -/
def vrna_cut_point_insert (string : List Char) (cp : Int) : List Char :=
  if 0 < cp then
    string.take (cp - 1).toNat ++ '&' :: string.drop (cp - 1).toNat
  else string

/-- Position of the first '&' in a string, if any. -/
def cut_point_find : List Char → Option Nat
  | [] => none
  | c :: rest => if c = '&' then some 0 else (cut_point_find rest).map (· + 1)

/-- The string with its first '&' sliced out. -/
def cut_point_erase : List Char → List Char
  | [] => []
  | c :: rest => if c = '&' then rest else c :: cut_point_erase rest

/-- Modelled from the spec: the body of `vrna_cut_point_remove` is not under
`src`; its documentation says it returns a copy of the input with the
cut-point '&' sliced out together with the (1-based) position where it stood,
or the unchanged input and `-1` when no '&' occurs. -/
def vrna_cut_point_remove (string : List Char) : List Char × Int :=
  match cut_point_find string with
  | some i => (cut_point_erase string, (i : Int) + 1)
  | none => (string, -1)

theorem cut_point_find_append (b : List Char) :
    ∀ a : List Char, '&' ∉ a → cut_point_find (a ++ '&' :: b) = some a.length
  | [], _ => by simp [cut_point_find]
  | c :: rest, h => by
    have hc : ¬c = '&' := fun hc => h (by simp [hc])
    have hrest : '&' ∉ rest := fun hm => h (List.mem_cons_of_mem c hm)
    simp [cut_point_find, hc, cut_point_find_append b rest hrest]

theorem cut_point_erase_append (b : List Char) :
    ∀ a : List Char, '&' ∉ a → cut_point_erase (a ++ '&' :: b) = a ++ b
  | [], _ => by simp [cut_point_erase]
  | c :: rest, h => by
    have hc : ¬c = '&' := fun hc => h (by simp [hc])
    have hrest : '&' ∉ rest := fun hm => h (List.mem_cons_of_mem c hm)
    simp [cut_point_erase, hc, cut_point_erase_append b rest hrest]

/-- C1. The ranking predicate returns true exactly when
`x.final_energy < y.final_energy` or `x.restricted_energy <
y.restricted_energy`: the branch cascade of `Result_comp::operator()` is the
disjunction of the two strict comparisons, so a strictly smaller final energy
alone suffices for a true result, regardless of the restricted energies. -/
theorem result_comp_eq_or (x y : Result) :
    x.result_comp y =
      (decide (x.get_final_energy < y.get_final_energy) ||
        decide (x.get_restricted_energy < y.get_restricted_energy)) := by
  unfold Result.result_comp
  split
  · next h => simp [h]
  · next h =>
    split
    · next h2 => simp [h2]
    · next h2 => simp [h, h2]

/-- C2. When the final energies tie, the ranking predicate returns exactly
the truth value of `x.restricted_energy < y.restricted_energy`. -/
theorem result_comp_of_final_energy_eq (x y : Result)
    (h : x.get_final_energy = y.get_final_energy) :
    x.result_comp y = decide (x.get_restricted_energy < y.get_restricted_energy) := by
  unfold Result.result_comp
  rw [h]
  simp only [lt_irrefl, if_false]
  split
  · next h2 => simp [h2]
  · next h2 => simp [h2]

/-- Witness for C2 at the spec's example: both final energies `-3`,
restricted energies `-1` and `0`. -/
theorem result_comp_of_final_energy_eq_witness :
    (Result.get_final_energy ⟨"A", "x", -1, "s", -3, 0⟩ =
        Result.get_final_energy ⟨"A", "x", 0, "s", -3, 0⟩) ∧
      Result.result_comp ⟨"A", "x", -1, "s", -3, 0⟩ ⟨"A", "x", 0, "s", -3, 0⟩ =
        decide (Result.get_restricted_energy ⟨"A", "x", -1, "s", -3, 0⟩ <
          Result.get_restricted_energy ⟨"A", "x", 0, "s", -3, 0⟩) :=
  ⟨by decide,
    result_comp_of_final_energy_eq
      ⟨"A", "x", -1, "s", -3, 0⟩ ⟨"A", "x", 0, "s", -3, 0⟩ (by decide)⟩

/-- C3. The ranking predicate is not transitive: a concrete triple where
`isBetter(x,y)` and `isBetter(y,z)` hold but `isBetter(x,z)` fails. -/
theorem result_comp_not_transitive :
    ∃ x y z : Result,
      x.result_comp y = true ∧ y.result_comp z = true ∧
        x.result_comp z = false :=
  ⟨⟨"A", "x", 0, "s", 0, 0⟩, ⟨"A", "x", 1, "s", -1, 0⟩,
    ⟨"B", "x", 0, "s", 0, 0⟩, by decide, by decide, by decide⟩

/-- C4. The ranking predicate admits incomparable distinct records: two
records that tie on both energies but differ in sequence, with
`isBetter(x,y)` and `isBetter(y,x)` both false. -/
theorem result_comp_incomparable_pair :
    ∃ x y : Result,
      x ≠ y ∧ x.result_comp y = false ∧ y.result_comp x = false :=
  ⟨⟨"GGGG", "x", -1, "s", -3, 0⟩, ⟨"CCCC", "x", -1, "s", -3, 0⟩,
    by decide, by decide, by decide⟩

/-- C5. Constructing a `Result` from six values and reading each of the
six getters returns exactly the corresponding constructor argument. -/
theorem result_mk_getters_roundtrip (sequence restricted : String)
    (restricted_energy : ℚ) (final_structure : String)
    (final_energy pf_energy : ℚ) :
    (Result.mk sequence restricted restricted_energy final_structure
          final_energy pf_energy).get_sequence = sequence ∧
      (Result.mk sequence restricted restricted_energy final_structure
          final_energy pf_energy).get_restricted = restricted ∧
      (Result.mk sequence restricted restricted_energy final_structure
          final_energy pf_energy).get_restricted_energy = restricted_energy ∧
      (Result.mk sequence restricted restricted_energy final_structure
          final_energy pf_energy).get_final_structure = final_structure ∧
      (Result.mk sequence restricted restricted_energy final_structure
          final_energy pf_energy).get_final_energy = final_energy ∧
      (Result.mk sequence restricted restricted_energy final_structure
          final_energy pf_energy).get_pf_energy = pf_energy :=
  ⟨rfl, rfl, rfl, rfl, rfl, rfl⟩

/-- C6. No public operation mutates a constructed record: in the
state-passing view, every getter and the ranking predicate hand every record
back unchanged, and the predicate totally computes the same Boolean as
`result_comp` with no failure path. -/
theorem result_ops_pure (r x y : Result) :
    r.get_sequence_st.2 = r ∧ r.get_restricted_st.2 = r ∧
      r.get_restricted_energy_st.2 = r ∧ r.get_final_structure_st.2 = r ∧
      r.get_final_energy_st.2 = r ∧ r.get_pf_energy_st.2 = r ∧
      (x.result_comp_st y).2.1 = x ∧ (x.result_comp_st y).2.2 = y ∧
      (x.result_comp_st y).1 = x.result_comp y := by
  refine ⟨rfl, rfl, rfl, rfl, rfl, rfl, ?_, ?_, ?_⟩ <;>
    · simp only [Result.result_comp_st, Result.result_comp,
        Result.get_final_energy_st, Result.get_restricted_energy_st,
        Result.get_final_energy, Result.get_restricted_energy]
      split_ifs <;> simp

/-- C9. The ranking predicate is irreflexive: no record is strictly
better than itself. -/
theorem result_comp_irrefl (x : Result) : x.result_comp x = false := by
  simp [Result.result_comp]

/-- C10. The ranking predicate depends only on the two energy fields:
records agreeing on `final_energy` and `restricted_energy` compare
identically, whatever their other four fields. -/
theorem result_comp_depends_only_on_energies (x y x' y' : Result)
    (hfx : x.get_final_energy = x'.get_final_energy)
    (hrx : x.get_restricted_energy = x'.get_restricted_energy)
    (hfy : y.get_final_energy = y'.get_final_energy)
    (hry : y.get_restricted_energy = y'.get_restricted_energy) :
    x.result_comp y = x'.result_comp y' := by
  unfold Result.result_comp
  rw [hfx, hrx, hfy, hry]

/-- Witness for C10: two record pairs with the same energies but different
sequences and structures compare identically. -/
theorem result_comp_depends_only_on_energies_witness :
    (Result.get_final_energy ⟨"A", "x", -2, "s", -5, 0⟩ =
        Result.get_final_energy ⟨"U", "y", -2, "t", -5, 9⟩) ∧
      (Result.get_restricted_energy ⟨"A", "x", -2, "s", -5, 0⟩ =
        Result.get_restricted_energy ⟨"U", "y", -2, "t", -5, 9⟩) ∧
      (Result.get_final_energy ⟨"C", "z", -10, "u", -4, 1⟩ =
        Result.get_final_energy ⟨"G", "w", -10, "v", -4, 2⟩) ∧
      (Result.get_restricted_energy ⟨"C", "z", -10, "u", -4, 1⟩ =
        Result.get_restricted_energy ⟨"G", "w", -10, "v", -4, 2⟩) ∧
      Result.result_comp ⟨"A", "x", -2, "s", -5, 0⟩ ⟨"C", "z", -10, "u", -4, 1⟩ =
        Result.result_comp ⟨"U", "y", -2, "t", -5, 9⟩ ⟨"G", "w", -10, "v", -4, 2⟩ :=
  ⟨by decide, by decide, by decide, by decide,
    result_comp_depends_only_on_energies
      ⟨"A", "x", -2, "s", -5, 0⟩ ⟨"C", "z", -10, "u", -4, 1⟩
      ⟨"U", "y", -2, "t", -5, 9⟩ ⟨"G", "w", -10, "v", -4, 2⟩
      (by decide) (by decide) (by decide) (by decide)⟩

/-- C7. Splitting on the '&' delimiter: the two documented examples, and,
whenever the delimiter does not occur in the input, the result is the
one-element list holding the whole input. -/
theorem strsplit_spec :
    vrna_strsplit "GGGG&CCCC&AAAAA".toList '&' =
        ["GGGG".toList, "CCCC".toList, "AAAAA".toList] ∧
      vrna_strsplit "GGGGCCCC".toList '&' = ["GGGGCCCC".toList] ∧
      ∀ (s : List Char) (d : Char), d ∉ s → vrna_strsplit s d = [s] :=
  ⟨by decide, by decide,
    fun s d h => by simpa [vrna_strsplit] using strsplit_go_of_not_mem d s [] h⟩

/-- Witness for C7: '&' does not occur in "GGGGAAAA", and splitting returns
the single-element list. -/
theorem strsplit_spec_witness :
    ('&' ∉ "GGGGAAAA".toList) ∧
      vrna_strsplit "GGGGAAAA".toList '&' = ["GGGGAAAA".toList] :=
  ⟨by decide, strsplit_spec.2.2 "GGGGAAAA".toList '&' (by decide)⟩

/-- C8. Cut-point insertion and removal round-trip: for a string without
an '&' and a positive in-range position `p`, removing the cut point after
inserting it returns the original string together with `p`; and insertion is
the identity whenever `p <= 0`. -/
theorem cut_point_roundtrip (s : List Char) (p : Int) :
    ('&' ∉ s → 0 < p → p ≤ s.length + 1 →
        vrna_cut_point_remove (vrna_cut_point_insert s p) = (s, p)) ∧
      (p ≤ 0 → vrna_cut_point_insert s p = s) := by
  constructor
  · intro hamp hpos hle
    have hn : (p - 1).toNat ≤ s.length := by omega
    have htk : '&' ∉ s.take (p - 1).toNat :=
      fun hm => hamp (List.take_subset _ _ hm)
    have hins : vrna_cut_point_insert s p =
        s.take (p - 1).toNat ++ '&' :: s.drop (p - 1).toNat := by
      simp [vrna_cut_point_insert, hpos]
    rw [hins]
    simp only [vrna_cut_point_remove, cut_point_find_append _ _ htk,
      cut_point_erase_append _ _ htk, List.take_append_drop,
      List.length_take, Prod.mk.injEq]
    refine ⟨trivial, ?_⟩
    have hmin : min (p - 1).toNat s.length = (p - 1).toNat := min_eq_left hn
    rw [hmin]
    omega
  · intro h
    simp only [vrna_cut_point_insert, if_neg (by omega : ¬(0:Int) < p)]

/-- Witness for C8 at the spec's example: inserting the cut point at position
4 in "GGGGCCCC" and removing it round-trips, and insertion at 0 is the
identity. -/
theorem cut_point_roundtrip_witness :
    ('&' ∉ "GGGGCCCC".toList) ∧ (0 : Int) < 4 ∧
      (4 : Int) ≤ "GGGGCCCC".toList.length + 1 ∧
      vrna_cut_point_remove (vrna_cut_point_insert "GGGGCCCC".toList 4) =
        ("GGGGCCCC".toList, 4) ∧
      ((0 : Int) ≤ 0 ∧ vrna_cut_point_insert "GGGGCCCC".toList 0 = "GGGGCCCC".toList) :=
  ⟨by decide, by decide, by decide,
    (cut_point_roundtrip "GGGGCCCC".toList 4).1 (by decide) (by decide) (by decide),
    le_refl 0, (cut_point_roundtrip "GGGGCCCC".toList 0).2 (by decide)⟩
